import Mathlib

/-!
Verification of the request-routing and parameter-extraction core of the
`mendes` web framework (`src/mendes/src/lib.rs`), as a shallow embedding.

Modelling conventions:
* A Rust `&str` path is modelled as `List Char`; the byte offsets the cursor
  stores become character indices (they coincide with byte offsets on ASCII
  paths, and the segment-level semantics — splitting on the ASCII character
  `'/'` — is index-unit independent).  Rust slicing `path[start..]` is
  modelled by `List.drop`; Rust panics when `start` exceeds the length, so
  theorems quantifying over arbitrary cursor states carry a well-formedness
  bound on the stored offsets where it matters.
* Stateful methods (`&mut self`) become pure functions returning the result
  together with the updated state.
* `http::StatusCode` is modelled as `Nat`; the status constants and the
  `Display`/`canonical_reason` behaviour of the external `http` crate are
  modelled from that crate's documented behaviour (`"404 Not Found"` style).
* Fallible operations return `Except ClientError` / `Option`.
-/

/-- Embeds `str::find('/')` (`src/lib.rs` uses `path.find('/')` and
`tail.find('/')`): index of the first `'/'`, if any. -/
def findSlash : List Char → Option Nat
  | [] => none
  | c :: rest => if c = '/' then some 0 else (findSlash rest).map (· + 1)

/-- Embeds `struct PathState { prev: Option<usize>, next: Option<usize> }`
(`src/lib.rs:175`). -/
structure PathState where
  prev : Option Nat
  next : Option Nat
deriving DecidableEq, Repr

/-- Embeds `PathState::new` (`src/lib.rs:181`): exhausted for `""` and `"/"`,
offset 1 when the path starts with `'/'`, offset 0 otherwise. -/
def PathState.new (path : List Char) : PathState :=
  { prev := none
    next :=
      if path = [] ∨ path = ['/'] then none
      else if findSlash path = some 0 then some 1
      else some 0 }

/-- Embeds `PathState::next` (`src/lib.rs:192`), the `advance` operation:
returns the next segment (if any) and the updated cursor. -/
def PathState.advance (s : PathState) (path : List Char) :
    Option (List Char) × PathState :=
  match s.next with
  | none => (none, s)
  | some start =>
    let tail := path.drop start
    if tail = [] then
      (none, { prev := some start, next := none })
    else
      match findSlash tail with
      | some e =>
        (some (tail.take e), { prev := some start, next := some (start + e + 1) })
      | none => (some tail, { prev := some start, next := none })

/-- Embeds `PathState::rest` (`src/lib.rs:216`), the `remainder` operation.
Note `self.next.take()` leaves `prev` untouched when `next` is `None`. -/
def PathState.rest (s : PathState) (path : List Char) : List Char × PathState :=
  match s.next with
  | none => ([], s)
  | some start => (path.drop start, { prev := some start, next := none })

/-- Embeds `PathState::rewind` (`src/lib.rs:226`), the `undo` operation:
`self.next = self.prev.take()`. -/
def PathState.rewind (s : PathState) : PathState :=
  { prev := none, next := s.prev }

/-- Offsets stored in the cursor stay within the path, as they do for every
state the Rust API can reach (Rust slicing would panic otherwise). -/
def PathState.wf (s : PathState) (path : List Char) : Prop :=
  (∀ i, s.next = some i → i ≤ path.length) ∧
  (∀ i, s.prev = some i → i ≤ path.length)

/-- Spec-side: the `'/'`-delimited parts of a list of characters (separators
excluded, empty parts included), as in the claim's "the '/'-delimited
segments of the path". -/
def splitSegs : List Char → List (List Char)
  | [] => [[]]
  | c :: rest =>
    if c = '/' then [] :: splitSegs rest
    else
      match splitSegs rest with
      | s :: ss => (c :: s) :: ss
      | [] => [[c]]

/-- Spec-side: the segments the claim says repeated `advance` yields for a
path: nothing for `""` and `"/"`; otherwise the `'/'`-delimited segments
after skipping a leading `'/'`, a trailing slash producing a final `none`
rather than an extra (empty) segment. -/
def specSegments (path : List Char) : List (List Char) :=
  let p := if path.head? = some '/' then path.tail else path
  if p = [] then []
  else if p.getLast? = some '/' then (splitSegs p).dropLast
  else splitSegs p

/-- Code-side intermediate: the segments `advance` yields starting from a
cursor that points at the given tail of the path. -/
def segsFrom : List Char → List (List Char)
  | [] => []
  | c :: rest =>
    if c = '/' then [] :: segsFrom rest
    else
      match segsFrom rest with
      | s :: ss => (c :: s) :: ss
      | [] => [[c]]

/-- Repeatedly `advance` from state `s`, collecting the yielded segments
until `advance` returns `none` (fuel-bounded; `path.length + 1` fuel is
always enough). -/
def PathState.collect : Nat → PathState → List Char → List (List Char)
  | 0, _, _ => []
  | fuel + 1, s, path =>
    match s.advance path with
    | (none, _) => []
    | (some seg, s') => seg :: PathState.collect fuel s' path

/-- Embeds `enum ClientError` (`src/lib.rs:231`): the closed enumeration of
client-fault kinds. -/
inductive ClientError where
  | BadRequest
  | Unauthorized
  | PaymentRequired
  | Forbidden
  | NotFound
  | MethodNotAllowed
  | NotAcceptable
  | ProxyAuthenticationRequired
  | RequestTimeout
  | Conflict
  | Gone
  | LengthRequired
  | PreconditionFailed
  | PayloadTooLarge
  | RequestUriTooLong
  | UnsupportedMediaType
  | RequestedRangeNotSatisfiable
  | ExpectationFailed
  | MisdirectedRequest
  | UnprocessableEntity
  | Locked
  | FailedDependency
  | UpgradeRequired
  | PreconditionRequired
  | TooManyRequests
  | RequestHeaderFieldsTooLarge
  | UnavailableForLegalReasons
deriving DecidableEq, Fintype, Repr

/-- Embeds `impl From<ClientError> for StatusCode` (`src/lib.rs:262`); the
`StatusCode` constants of the external `http` crate are modelled by their
numeric values (`StatusCode::BAD_REQUEST` is 400, and so on). -/
def ClientError.toStatusCode : ClientError → Nat
  | .BadRequest => 400
  | .Unauthorized => 401
  | .PaymentRequired => 402
  | .Forbidden => 403
  | .NotFound => 404
  | .MethodNotAllowed => 405
  | .NotAcceptable => 406
  | .ProxyAuthenticationRequired => 407
  | .RequestTimeout => 408
  | .Conflict => 409
  | .Gone => 410
  | .LengthRequired => 411
  | .PreconditionFailed => 412
  | .PayloadTooLarge => 413
  | .RequestUriTooLong => 414
  | .UnsupportedMediaType => 415
  | .RequestedRangeNotSatisfiable => 416
  | .ExpectationFailed => 417
  | .MisdirectedRequest => 421
  | .UnprocessableEntity => 422
  | .Locked => 423
  | .FailedDependency => 424
  | .UpgradeRequired => 426
  | .PreconditionRequired => 428
  | .TooManyRequests => 429
  | .RequestHeaderFieldsTooLarge => 431
  | .UnavailableForLegalReasons => 451

/-- Modelled from the external `http` crate (a dependency, not part of this
repository): `StatusCode::canonical_reason`, restricted to the codes the
program maps to; every other code is `none` here, which only widens the
`none` case the display falls back on. -/
def canonicalReason : Nat → Option String
  | 400 => some "Bad Request"
  | 401 => some "Unauthorized"
  | 402 => some "Payment Required"
  | 403 => some "Forbidden"
  | 404 => some "Not Found"
  | 405 => some "Method Not Allowed"
  | 406 => some "Not Acceptable"
  | 407 => some "Proxy Authentication Required"
  | 408 => some "Request Timeout"
  | 409 => some "Conflict"
  | 410 => some "Gone"
  | 411 => some "Length Required"
  | 412 => some "Precondition Failed"
  | 413 => some "Payload Too Large"
  | 414 => some "URI Too Long"
  | 415 => some "Unsupported Media Type"
  | 416 => some "Range Not Satisfiable"
  | 417 => some "Expectation Failed"
  | 421 => some "Misdirected Request"
  | 422 => some "Unprocessable Entity"
  | 423 => some "Locked"
  | 424 => some "Failed Dependency"
  | 426 => some "Upgrade Required"
  | 428 => some "Precondition Required"
  | 429 => some "Too Many Requests"
  | 431 => some "Request Header Fields Too Large"
  | 451 => some "Unavailable For Legal Reasons"
  | _ => none

/-- Modelled from the external `http` crate: `impl Display for StatusCode`
renders the numeric code, a space, and the canonical reason phrase (or a
placeholder for codes without one), e.g. `"404 Not Found"`. -/
def statusCodeDisplay (code : Nat) : String :=
  toString code ++ " " ++ (canonicalReason code).getD "<unknown status code>"

/-- Embeds `impl fmt::Display for ClientError` (`src/lib.rs:330`):
`write!(fmt, "{}", StatusCode::from(*self))`. -/
def ClientError.display (e : ClientError) : String :=
  statusCodeDisplay e.toStatusCode

/-- Embeds `struct Context<A>` (`src/lib.rs:76`).  The application handle is
the opaque type parameter `A`; of the request metadata (`http::request::
Parts`) only the URI path takes part in the operations the claims concern,
so it is the `req_path` field here; the request body type is `B`. -/
structure Context (A B : Type) where
  app : A
  req_path : List Char
  body : Option B
  path : PathState

/-- Embeds `Context::new` (`src/lib.rs:90`): builds the cursor from the
request path and stores the body as present. -/
def Context.new {A B : Type} (app : A) (req_path : List Char) (body : B) :
    Context A B :=
  { app := app, req_path := req_path, body := some body
    path := PathState.new req_path }

/-- Embeds `Context::next` (`src/lib.rs:101`): delegate to the cursor against
the stored request path. -/
def Context.next {A B : Type} (cx : Context A B) :
    Option (List Char) × Context A B :=
  ((cx.path.advance cx.req_path).1,
    { cx with path := (cx.path.advance cx.req_path).2 })

/-- Embeds `Context::rest` (`src/lib.rs:105`). -/
def Context.rest {A B : Type} (cx : Context A B) : List Char × Context A B :=
  ((cx.path.rest cx.req_path).1,
    { cx with path := (cx.path.rest cx.req_path).2 })

/-- Embeds `Context::take_body` (`src/lib.rs:109`): `self.body.take()`. -/
def Context.take_body {A B : Type} (cx : Context A B) :
    Option B × Context A B :=
  (cx.body, { cx with body := none })

/-- Embeds `Context::rewind` (`src/lib.rs:113`). -/
def Context.rewind {A B : Type} (cx : Context A B) : Context A B :=
  { cx with path := cx.path.rewind }

/-- Decimal-digit accumulation loop shared by the integer parsers (the digit
loop of Rust `from_str_radix` at radix 10): fails on a non-digit, otherwise
folds the digits onto `acc`. -/
def digitsVal : List Char → Nat → Option Nat
  | [], acc => some acc
  | c :: rest, acc =>
    if c.isDigit then digitsVal rest (acc * 10 + (c.toNat - 48))
    else none

/-- Embeds `usize::from_str` (on a 64-bit target): an optional leading
`'+'`, then at least one character, all decimal digits, with the value in
the `usize` range; a leading `'-'` is a non-digit and fails.  Rust's
per-step checked arithmetic is equivalent to the final-value bound because
the accumulated value never decreases. -/
def usizeFromStr (s : List Char) : Option Nat :=
  match s with
  | [] => none
  | '+' :: rest =>
    if rest = [] then none
    else
      match digitsVal rest 0 with
      | some n => if n < 2 ^ 64 then some n else none
      | none => none
  | _ =>
    match digitsVal s 0 with
    | some n => if n < 2 ^ 64 then some n else none
    | none => none

/-- Embeds `i32::from_str`: an optional `'+'` or `'-'` sign, then at least
one character, all decimal digits, with the value in the `i32` range. -/
def i32FromStr (s : List Char) : Option Int :=
  match s with
  | [] => none
  | '+' :: rest =>
    if rest = [] then none
    else
      match digitsVal rest 0 with
      | some n => if n ≤ 2 ^ 31 - 1 then some (n : Int) else none
      | none => none
  | '-' :: rest =>
    if rest = [] then none
    else
      match digitsVal rest 0 with
      | some n => if n ≤ 2 ^ 31 then some (-(n : Int)) else none
      | none => none
  | _ =>
    match digitsVal s 0 with
    | some n => if n ≤ 2 ^ 31 - 1 then some (n : Int) else none
    | none => none

/-- Embeds `impl FromContext for &str` (`src/lib.rs:155`).  The application
error type `A::Error` is modelled by `ClientError` itself: the `Into`
conversion at the boundary is outside this core. -/
def fromContextStr {A B : Type} (cx : Context A B) :
    Except ClientError (List Char) × Context A B :=
  match cx.next with
  | (some s, cx') => (.ok s, cx')
  | (none, cx') => (.error .NotFound, cx')

/-- Embeds `impl FromContext for Option<&str>` (`src/lib.rs:149`). -/
def fromContextOptStr {A B : Type} (cx : Context A B) :
    Except ClientError (Option (List Char)) × Context A B :=
  (Except.ok (cx.next).1, (cx.next).2)

/-- Embeds `impl FromContext for usize` (`src/lib.rs:161`). -/
def fromContextUsize {A B : Type} (cx : Context A B) :
    Except ClientError Nat × Context A B :=
  match cx.next with
  | (none, cx') => (.error .NotFound, cx')
  | (some s, cx') =>
    match usizeFromStr s with
    | some n => (.ok n, cx')
    | none => (.error .NotFound, cx')

/-- Embeds `impl FromContext for i32` (`src/lib.rs:168`). -/
def fromContextI32 {A B : Type} (cx : Context A B) :
    Except ClientError Int × Context A B :=
  match cx.next with
  | (none, cx') => (.error .NotFound, cx')
  | (some s, cx') =>
    match i32FromStr s with
    | some n => (.ok n, cx')
    | none => (.error .NotFound, cx')

/-- `as.listIsPrefixOf bs` embeds Rust's byte-slice
`as.starts_with(bs)` reversed: it holds when `as` is an initial run of
`bs`. -/
def listIsPrefixOf : List Char → List Char → Bool
  | [], _ => true
  | _ :: _, [] => false
  | a :: as, b :: bs => a == b && listIsPrefixOf as bs

/-- First header value for a name; the `http::HeaderMap` of the source keeps
names lowercased, and `headers.get` returns the first value. -/
def headerGet (headers : List (String × String)) (name : String) :
    Option String :=
  (headers.find? (fun p => p.fst = name)).map Prod.snd

/-- Embeds `from_body_bytes` (`src/lib.rs:298`) with the three codec
features enabled.  The external codecs (`serde_urlencoded::from_bytes`,
`serde_json::from_slice`, `forms::from_form_data`) are parameters that
return `none` exactly when the Rust codec returns `Err`; each codec failure
becomes `UnprocessableEntity`. -/
def from_body_bytes {T : Type}
    (urlencodedCodec : List Nat → Option T)
    (jsonCodec : List Nat → Option T)
    (multipartCodec : List (String × String) → List Nat → Option T)
    (headers : List (String × String)) (bytes : List Nat) :
    Except ClientError T :=
  match headerGet headers "content-type" with
  | some t =>
    if t = "application/x-www-form-urlencoded" then
      match urlencodedCodec bytes with
      | some v => .ok v
      | none => .error .UnprocessableEntity
    else if t = "application/json" then
      match jsonCodec bytes with
      | some v => .ok v
      | none => .error .UnprocessableEntity
    else if listIsPrefixOf "multipart/form-data".toList t.toList then
      match multipartCodec headers bytes with
      | some v => .ok v
      | none => .error .UnprocessableEntity
    else .error .UnsupportedMediaType
  | none => .error .BadRequest

/-- C3: Double-undo collapse: two consecutive `undo` calls, or `undo` on a
fresh cursor, leave the cursor exhausted (`next = none`), so a subsequent
`advance` returns `none` and changes nothing; the original start offset is
never restored. -/
theorem c3_double_undo_collapse (path : List Char) (s : PathState) :
    (s.rewind.rewind).next = none
    ∧ (s.rewind.rewind).advance path = (none, s.rewind.rewind)
    ∧ ((PathState.new path).rewind).next = none
    ∧ ((PathState.new path).rewind).advance path
        = (none, (PathState.new path).rewind) := by
  refine ⟨rfl, rfl, rfl, rfl⟩

/-- C4: Remainder semantics: on an exhausted cursor `rest` returns the empty
string and changes nothing; otherwise it returns the whole unconsumed tail
`path[start..]`, records `start` in `prev` and clears `next`; on the path
`"/users/42/edit"` before any advance it returns `"users/42/edit"`. -/
theorem c4_remainder (path : List Char) (s : PathState) :
    (s.next = none → s.rest path = ([], s))
    ∧ (∀ start, s.next = some start →
        s.rest path = (path.drop start, ⟨some start, none⟩))
    ∧ (PathState.new "/users/42/edit".toList).rest "/users/42/edit".toList
        = ("users/42/edit".toList, ⟨some 1, none⟩) := by
  refine ⟨fun h => ?_, fun start h => ?_, rfl⟩
  · simp [PathState.rest, h]
  · simp [PathState.rest, h]

theorem c4_remainder_witness :
    (⟨none, some 0⟩ : PathState).next = some 0
    ∧ (⟨none, some 0⟩ : PathState).rest "ab".toList
        = ("ab".toList, ⟨some 0, none⟩) :=
  ⟨rfl, (c4_remainder "ab".toList ⟨none, some 0⟩).2.1 0 rfl⟩

/-- C10: Frame property of the exhausted cursor: when `next = none`,
`advance` returns `none` and `rest` returns the empty string, and both leave
the whole cursor (both fields) unchanged; consequently an `undo` after such a
call still restores the position recorded before the last consuming call. -/
theorem c10_exhausted_frame (path : List Char) (s : PathState)
    (h : s.next = none) :
    s.advance path = (none, s)
    ∧ s.rest path = ([], s)
    ∧ ((s.advance path).2).rewind = s.rewind
    ∧ ((s.rest path).2).rewind = s.rewind := by
  refine ⟨?_, ?_, ?_, ?_⟩ <;> simp [PathState.advance, PathState.rest, h]

/-- C2 (amended): Undo round-trip law, restricted to cursor states that are
not exhausted (`next ≠ none`) or carry no recorded previous position:
`advance` then `undo` then `advance` yields the same segment and the same
resulting state as a single `advance`, and `undo` after `remainder` restores
the position (`next`) held before the `remainder` call. -/
theorem c2_undo_round_trip (path : List Char) (s : PathState)
    (hwf : ∀ i, s.next = some i → i ≤ path.length)
    (h : s.next ≠ none ∨ s.prev = none) :
    ((s.advance path).2).rewind.advance path = s.advance path
    ∧ (((s.rest path).2).rewind).next = s.next := by
  obtain ⟨p, n⟩ := s
  cases n with
  | none =>
    have hp : p = none := by
      rcases h with h | h
      · exact absurd rfl h
      · exact h
    subst hp
    exact ⟨rfl, rfl⟩
  | some start =>
    refine ⟨?_, by simp [PathState.rest, PathState.rewind]⟩
    by_cases htail : path.drop start = []
    · simp [PathState.advance, PathState.rewind, htail]
    · cases hf : findSlash (path.drop start) with
      | some e => simp [PathState.advance, PathState.rewind, htail, hf]
      | none => simp [PathState.advance, PathState.rewind, htail, hf]

/-- C2 counterexample: on the exhausted-but-rewindable state
`⟨prev := some 0, next := none⟩` over path `"a"`, `advance; undo; advance`
does not reproduce the result of the single `advance` (the first `advance`
yields `none`, the second yields `"a"`). -/
theorem c2_undo_round_trip_cex :
    ¬ ((((PathState.advance ⟨some 0, none⟩ ['a']).2).rewind).advance ['a']
        = PathState.advance ⟨some 0, none⟩ ['a']) := by
  decide

theorem c2_undo_round_trip_witness :
    ((∀ i, (⟨none, some 1⟩ : PathState).next = some i → i ≤ "/ab".toList.length)
      ∧ ((⟨none, some 1⟩ : PathState).next ≠ none ∨ (⟨none, some 1⟩ : PathState).prev = none))
    ∧ (((PathState.advance ⟨none, some 1⟩ "/ab".toList).2).rewind.advance "/ab".toList
          = PathState.advance ⟨none, some 1⟩ "/ab".toList
        ∧ (((PathState.rest ⟨none, some 1⟩ "/ab".toList).2).rewind).next
          = (⟨none, some 1⟩ : PathState).next) :=
  ⟨⟨fun i hi => by cases hi; decide, Or.inr rfl⟩,
    c2_undo_round_trip "/ab".toList ⟨none, some 1⟩
      (fun i hi => by cases hi; decide) (Or.inr rfl)⟩

theorem c10_exhausted_frame_witness :
    (⟨some 2, none⟩ : PathState).next = none
    ∧ (⟨some 2, none⟩ : PathState).advance "abc".toList
        = (none, ⟨some 2, none⟩) :=
  ⟨rfl, (c10_exhausted_frame "abc".toList ⟨some 2, none⟩ rfl).1⟩

theorem findSlash_lt_length (s : List Char) (e : Nat) (h : findSlash s = some e) :
    e < s.length := by
  induction s generalizing e with
  | nil => simp [findSlash] at h
  | cons c rest ih =>
    by_cases hc : c = '/'
    · simp [findSlash, hc] at h
      simp [← h]
    · simp [findSlash, hc] at h
      obtain ⟨e', he', rfl⟩ := h
      have := ih e' he'
      simp
      omega

theorem findSlash_eq_zero_iff (s : List Char) :
    findSlash s = some 0 ↔ s.head? = some '/' := by
  cases s with
  | nil => simp [findSlash]
  | cons c rest =>
    by_cases hc : c = '/'
    · simp [findSlash, hc]
    · simp only [findSlash, if_neg hc, List.head?_cons]
      constructor
      · intro h
        cases h' : findSlash rest with
        | none => simp [h'] at h
        | some e' => simp [h'] at h
      · intro h
        exact absurd (Option.some_injective _ h) hc

theorem segsFrom_unfold (s : List Char) (hs : s ≠ []) :
    segsFrom s =
      match findSlash s with
      | some e => s.take e :: segsFrom (s.drop (e + 1))
      | none => [s] := by
  induction s with
  | nil => exact absurd rfl hs
  | cons c rest ih =>
    by_cases hc : c = '/'
    · subst hc
      simp [segsFrom, findSlash]
    · by_cases hrest : rest = []
      · subst hrest
        simp [segsFrom, findSlash, hc]
      · have H := ih hrest
        cases hf : findSlash rest with
        | some e' =>
          rw [hf] at H
          simp [segsFrom, findSlash, hc, hf, H]
        | none =>
          rw [hf] at H
          simp [segsFrom, findSlash, hc, hf, H]

theorem collect_exhausted (fuel : Nat) (path : List Char) (pr : Option Nat) :
    PathState.collect fuel ⟨pr, none⟩ path = [] := by
  cases fuel <;> rfl

theorem collect_eq_segsFrom (fuel : Nat) :
    ∀ (path : List Char) (pr : Option Nat) (start : Nat),
      start ≤ path.length → path.length + 1 - start ≤ fuel →
      PathState.collect fuel ⟨pr, some start⟩ path = segsFrom (path.drop start) := by
  induction fuel with
  | zero =>
    intro path pr start h1 h2
    omega
  | succ fuel ih =>
    intro path pr start h1 h2
    by_cases htail : path.drop start = []
    · simp [PathState.collect, PathState.advance, htail, segsFrom]
    · cases hf : findSlash (path.drop start) with
      | some e =>
        have he : e < (path.drop start).length := findSlash_lt_length _ _ hf
        rw [List.length_drop] at he
        have hstep : PathState.collect (fuel + 1) ⟨pr, some start⟩ path
            = (path.drop start).take e
              :: PathState.collect fuel ⟨some start, some (start + e + 1)⟩ path := by
          simp [PathState.collect, PathState.advance, htail, hf]
        rw [hstep, ih path (some start) (start + e + 1) (by omega) (by omega),
          segsFrom_unfold _ htail]
        have hdrop : (path.drop start).drop (e + 1) = path.drop (start + e + 1) := by
          rw [List.drop_drop, Nat.add_assoc start e 1]
        simp [hf, hdrop]
      | none =>
        have hstep : PathState.collect (fuel + 1) ⟨pr, some start⟩ path
            = path.drop start :: PathState.collect fuel ⟨some start, none⟩ path := by
          simp [PathState.collect, PathState.advance, htail, hf]
        rw [hstep, collect_exhausted]
        rw [segsFrom_unfold _ htail, hf]

theorem splitSegs_ne_nil (s : List Char) : splitSegs s ≠ [] := by
  cases s with
  | nil => simp [splitSegs]
  | cons c rest =>
    by_cases hc : c = '/'
    · simp [splitSegs, hc]
    · simp only [splitSegs, if_neg hc]
      cases splitSegs rest <;> simp

theorem mem_of_getLast?_eq {α : Type} (l : List α) (a : α)
    (h : l.getLast? = some a) : a ∈ l := by
  induction l with
  | nil => simp at h
  | cons b bs ih =>
    cases bs with
    | nil =>
      simp at h
      simp [h]
    | cons x xs =>
      rw [List.getLast?_cons_cons] at h
      exact List.mem_cons_of_mem b (ih h)

theorem two_le_splitSegs_length (s : List Char) (h : '/' ∈ s) :
    2 ≤ (splitSegs s).length := by
  induction s with
  | nil => simp at h
  | cons c rest ih =>
    by_cases hc : c = '/'
    · have hne := splitSegs_ne_nil rest
      simp only [splitSegs, if_pos hc, List.length_cons]
      cases hr : splitSegs rest with
      | nil => exact absurd hr hne
      | cons a as => simp
    · have hmem : '/' ∈ rest := by
        rcases List.mem_cons.mp h with h' | h'
        · exact absurd h'.symm hc
        · exact h'
      have h2 := ih hmem
      simp only [splitSegs, if_neg hc]
      cases hr : splitSegs rest with
      | nil => exact absurd hr (splitSegs_ne_nil rest)
      | cons a as =>
        rw [hr] at h2
        simpa using h2

theorem segsFrom_eq_spec (s : List Char) :
    segsFrom s =
      if s = [] then []
      else if s.getLast? = some '/' then (splitSegs s).dropLast
      else splitSegs s := by
  induction s with
  | nil => simp [segsFrom]
  | cons c rest ih =>
    by_cases hrest : rest = []
    · subst hrest
      by_cases hc : c = '/'
      · subst hc
        simp [segsFrom, splitSegs]
      · simp [segsFrom, splitSegs, hc]
    · have hLcons : (c :: rest).getLast? = rest.getLast? := by
        cases rest with
        | nil => exact absurd rfl hrest
        | cons r rs => exact List.getLast?_cons_cons
      rw [if_neg (by simp : ¬(c :: rest) = []), hLcons]
      rw [if_neg hrest] at ih
      obtain ⟨a, as, hsp⟩ : ∃ a as, splitSegs rest = a :: as := by
        cases hx : splitSegs rest with
        | nil => exact absurd hx (splitSegs_ne_nil rest)
        | cons a as => exact ⟨a, as, rfl⟩
      by_cases hL : rest.getLast? = some '/'
      · rw [if_pos hL]
        rw [if_pos hL] at ih
        have h2 : 2 ≤ (splitSegs rest).length :=
          two_le_splitSegs_length rest (mem_of_getLast?_eq rest _ hL)
        obtain ⟨b, bs, hbs⟩ : ∃ b bs, as = b :: bs := by
          cases has : as with
          | nil => rw [hsp, has] at h2; simp at h2
          | cons b bs => exact ⟨b, bs, rfl⟩
        subst hbs
        rw [hsp] at ih
        by_cases hc : c = '/'
        · subst hc
          simp [segsFrom, splitSegs, ih, hsp, List.dropLast_cons₂]
        · simp [segsFrom, splitSegs, hc, ih, hsp, List.dropLast_cons₂]
      · rw [if_neg hL]
        rw [if_neg hL] at ih
        by_cases hc : c = '/'
        · subst hc
          simp [segsFrom, splitSegs, ih]
        · simp [segsFrom, splitSegs, hc, ih, hsp]

/-- C1: Segment enumeration: for the path `""` or `"/"` the first `advance`
returns `none` (second conjunct); otherwise repeated `advance` from a fresh
cursor yields exactly the `'/'`-delimited segments of the path in order (a
leading `'/'` skipped, separators excluded, a trailing slash yielding a
final `none` rather than an extra segment) and then `none` (first conjunct:
collecting with any sufficient fuel yields `specSegments` and nothing more). -/
theorem c1_segment_enumeration (path : List Char) (fuel : Nat)
    (hfuel : path.length + 1 ≤ fuel) :
    PathState.collect fuel (PathState.new path) path = specSegments path
    ∧ ((path = [] ∨ path = ['/']) →
        (PathState.new path).advance path = (none, PathState.new path)) := by
  constructor
  · by_cases h0 : path = [] ∨ path = ['/']
    · have hnew : PathState.new path = ⟨none, none⟩ := by
        simp [PathState.new, h0]
      rw [hnew, collect_exhausted]
      rcases h0 with h | h <;> subst h <;> rfl
    · by_cases hs : findSlash path = some 0
      · have hnew : PathState.new path = ⟨none, some 1⟩ := by
          simp [PathState.new, h0, hs]
        have hhead : path.head? = some '/' := (findSlash_eq_zero_iff path).mp hs
        have h1 : 1 ≤ path.length := by
          cases path with
          | nil => simp at hhead
          | cons a l => simp
        rw [hnew, collect_eq_segsFrom fuel path none 1 h1 (by omega),
          segsFrom_eq_spec]
        simp [specSegments, hhead, List.drop_one]
      · have hnew : PathState.new path = ⟨none, some 0⟩ := by
          simp [PathState.new, h0, hs]
        have hhead : ¬path.head? = some '/' := fun hh =>
          hs ((findSlash_eq_zero_iff path).mpr hh)
        rw [hnew, collect_eq_segsFrom fuel path none 0 (by omega) (by omega),
          segsFrom_eq_spec]
        simp [specSegments, hhead]
  · intro h0
    have hnew : PathState.new path = ⟨none, none⟩ := by
      simp [PathState.new, h0]
    rw [hnew]
    rfl

theorem c1_segment_enumeration_witness :
    ("/users/42/edit".toList.length + 1 ≤ 20)
    ∧ PathState.collect 20 (PathState.new "/users/42/edit".toList)
        "/users/42/edit".toList
      = specSegments "/users/42/edit".toList :=
  ⟨by decide, (c1_segment_enumeration "/users/42/edit".toList 20 (by decide)).1⟩

/-- Sanity instance of the enumeration on the spec's worked example. -/
theorem collect_users_42_edit :
    PathState.collect 20 (PathState.new "/users/42/edit".toList)
        "/users/42/edit".toList
      = ["users".toList, "42".toList, "edit".toList]
    ∧ PathState.collect 20 (PathState.new "/users/".toList) "/users/".toList
      = ["users".toList] := by
  constructor <;> rfl

/-- C5 counterexample: the `ClientError` enumeration does not have 26 kinds;
it has 27 (the claim's count is off by one). -/
theorem c5_status_mapping_cex : Fintype.card ClientError ≠ 26 := by
  decide

/-- C5 (amended): the ClientError-to-status-code mapping is a total function
on the 27 (not 26) ClientError kinds and is injective: every kind has exactly
one code and no two kinds share a code. -/
theorem c5_status_mapping_total_injective :
    Fintype.card ClientError = 27
    ∧ Function.Injective ClientError.toStatusCode := by
  exact ⟨by decide, by decide⟩

/-- C9 counterexample: the display form of `NotFound` is `"404 Not Found"` —
the numeric code followed by the reason phrase — and not the bare canonical
reason phrase (`"Not Found"`) of the status it maps to. -/
theorem c9_display_cex :
    some (ClientError.display ClientError.NotFound)
      ≠ canonicalReason (ClientError.toStatusCode ClientError.NotFound) := by
  decide

/-- C9 (amended): for every ClientError kind the mapped status code has a
canonical reason phrase, and the display form renders the numeric code
followed by a space and that phrase (e.g. `NotFound` displays as
`"404 Not Found"`). -/
theorem c9_display_code_and_reason (e : ClientError) :
    ∃ r, canonicalReason e.toStatusCode = some r
      ∧ ClientError.display e = toString e.toStatusCode ++ " " ++ r := by
  cases e <;> exact ⟨_, rfl, rfl⟩

/-- C7: Body single-take: the first `take_body` returns the stored payload,
every subsequent `take_body` on the resulting context returns `none`, and no
other context operation (`next`, `rest`, `rewind`) touches the body. -/
theorem c7_take_body_single (A B : Type) (cx : Context A B) (b : B)
    (h : cx.body = some b) :
    (cx.take_body).1 = some b
    ∧ ((cx.take_body).2).take_body = (none, (cx.take_body).2)
    ∧ ((cx.next).2).body = cx.body
    ∧ ((cx.rest).2).body = cx.body
    ∧ (cx.rewind).body = cx.body := by
  exact ⟨by simp [Context.take_body, h], rfl, rfl, rfl, rfl⟩

theorem c7_take_body_single_witness :
    (Context.new () "/x".toList (5 : Nat)).body = some 5
    ∧ ((Context.new () "/x".toList (5 : Nat)).take_body).1 = some 5 :=
  ⟨rfl, (c7_take_body_single Unit Nat (Context.new () "/x".toList 5) 5 rfl).1⟩

/-- C8: Extraction behaviour: when `advance` yields no segment, the required
segment, unsigned-integer and signed-integer extractors all fail with
`NotFound`; when it yields `"42"` both integer extractors succeed with 42;
when it yields `"abc"` both fail with `NotFound`; and each of these
extractors leaves the context exactly one `advance` step further. -/
theorem c8_extraction (A B : Type) (cx cx' : Context A B) :
    (cx.next = (none, cx') →
      fromContextStr cx = (.error .NotFound, cx')
      ∧ fromContextUsize cx = (.error .NotFound, cx')
      ∧ fromContextI32 cx = (.error .NotFound, cx'))
    ∧ (cx.next = (some "42".toList, cx') →
      fromContextUsize cx = (.ok 42, cx')
      ∧ fromContextI32 cx = (.ok 42, cx'))
    ∧ (cx.next = (some "abc".toList, cx') →
      fromContextUsize cx = (.error .NotFound, cx')
      ∧ fromContextI32 cx = (.error .NotFound, cx'))
    ∧ (fromContextStr cx).2 = (cx.next).2
    ∧ (fromContextUsize cx).2 = (cx.next).2
    ∧ (fromContextI32 cx).2 = (cx.next).2 := by
  have h42u : usizeFromStr ['4', '2'] = some 42 := rfl
  have h42i : i32FromStr ['4', '2'] = some 42 := rfl
  have habcu : usizeFromStr ['a', 'b', 'c'] = none := rfl
  have habci : i32FromStr ['a', 'b', 'c'] = none := rfl
  refine ⟨?_, ?_, ?_, ?_, ?_, ?_⟩
  · intro h
    exact ⟨by simp [fromContextStr, h], by simp [fromContextUsize, h],
      by simp [fromContextI32, h]⟩
  · intro h
    exact ⟨by simp [fromContextUsize, h, h42u],
      by simp [fromContextI32, h, h42i]⟩
  · intro h
    exact ⟨by simp [fromContextUsize, h, habcu],
      by simp [fromContextI32, h, habci]⟩
  · rcases hnx : cx.next with ⟨r, cx2⟩
    cases r <;> simp [fromContextStr, hnx]
  · rcases hnx : cx.next with ⟨r, cx2⟩
    cases r with
    | none => simp [fromContextUsize, hnx]
    | some s =>
      cases hu : usizeFromStr s <;> simp [fromContextUsize, hnx, hu]
  · rcases hnx : cx.next with ⟨r, cx2⟩
    cases r with
    | none => simp [fromContextI32, hnx]
    | some s =>
      cases hu : i32FromStr s <;> simp [fromContextI32, hnx, hu]

theorem c8_extraction_witness :
    (Context.new () "/42".toList ()).next
      = (some "42".toList, ⟨(), "/42".toList, some (), ⟨some 1, none⟩⟩)
    ∧ fromContextUsize (Context.new () "/42".toList ())
      = (.ok 42, ⟨(), "/42".toList, some (), ⟨some 1, none⟩⟩)
    ∧ fromContextI32 (Context.new () "/42".toList ())
      = (.ok 42, ⟨(), "/42".toList, some (), ⟨some 1, none⟩⟩) :=
  ⟨rfl,
    ((c8_extraction Unit Unit (Context.new () "/42".toList ())
      ⟨(), "/42".toList, some (), ⟨some 1, none⟩⟩).2.1 rfl).1,
    ((c8_extraction Unit Unit (Context.new () "/42".toList ())
      ⟨(), "/42".toList, some (), ⟨some 1, none⟩⟩).2.1 rfl).2⟩

/-- C6: Body-decode dispatch: with `content-type: application/json` and
bytes the JSON codec accepts, decoding succeeds; the same header with bytes
the codec rejects fails with exactly `UnprocessableEntity`; an absent
`content-type` fails with exactly `BadRequest`; a present value recognised
by no codec (e.g. `text/plain`) fails with exactly `UnsupportedMediaType`;
and no failure kind beyond these three ever reaches the caller. -/
theorem c6_body_dispatch {T : Type}
    (ue js : List Nat → Option T)
    (mp : List (String × String) → List Nat → Option T)
    (headers : List (String × String)) (bytes : List Nat) :
    (∀ v, headerGet headers "content-type" = some "application/json" →
      js bytes = some v → from_body_bytes ue js mp headers bytes = .ok v)
    ∧ (headerGet headers "content-type" = some "application/json" →
      js bytes = none →
      from_body_bytes ue js mp headers bytes = .error .UnprocessableEntity)
    ∧ (headerGet headers "content-type" = none →
      from_body_bytes ue js mp headers bytes = .error .BadRequest)
    ∧ (∀ t, headerGet headers "content-type" = some t →
      t ≠ "application/x-www-form-urlencoded" → t ≠ "application/json" →
      listIsPrefixOf "multipart/form-data".toList t.toList = false →
      from_body_bytes ue js mp headers bytes = .error .UnsupportedMediaType)
    ∧ (headerGet headers "content-type" = some "text/plain" →
      from_body_bytes ue js mp headers bytes = .error .UnsupportedMediaType)
    ∧ (∀ e, from_body_bytes ue js mp headers bytes = .error e →
      e = .UnprocessableEntity ∨ e = .BadRequest ∨ e = .UnsupportedMediaType) := by
  have hother : ∀ t, headerGet headers "content-type" = some t →
      t ≠ "application/x-www-form-urlencoded" → t ≠ "application/json" →
      listIsPrefixOf "multipart/form-data".toList t.toList = false →
      from_body_bytes ue js mp headers bytes
        = .error .UnsupportedMediaType := by
    intro t hct h1 h2 h3
    simp only [from_body_bytes, hct]
    rw [if_neg h1, if_neg h2, if_neg (by rw [Bool.not_eq_true]; exact h3)]
  refine ⟨?_, ?_, ?_, hother, ?_, ?_⟩
  · intro v hct hjs
    simp [from_body_bytes, hct, hjs]
  · intro hct hjs
    simp [from_body_bytes, hct, hjs]
  · intro hct
    simp [from_body_bytes, hct]
  · intro hct
    exact hother "text/plain" hct (by decide) (by decide) rfl
  · intro er h
    cases hct : headerGet headers "content-type" with
    | none =>
      simp [from_body_bytes, hct] at h
      simp [h]
    | some t =>
      simp only [from_body_bytes, hct] at h
      by_cases h1 : t = "application/x-www-form-urlencoded"
      · rw [if_pos h1] at h
        cases hc : ue bytes with
        | some v => rw [hc] at h; simp at h
        | none => rw [hc] at h; simp at h; simp [h]
      · rw [if_neg h1] at h
        by_cases h2 : t = "application/json"
        · rw [if_pos h2] at h
          cases hc : js bytes with
          | some v => rw [hc] at h; simp at h
          | none => rw [hc] at h; simp at h; simp [h]
        · rw [if_neg h2] at h
          by_cases h3 : listIsPrefixOf "multipart/form-data".toList t.toList
          · rw [if_pos h3] at h
            cases hc : mp headers bytes with
            | some v => rw [hc] at h; simp at h
            | none => rw [hc] at h; simp at h; simp [h]
          · rw [if_neg h3] at h
            simp at h
            simp [h]

theorem c6_body_dispatch_witness :
    headerGet [("content-type", "application/json")] "content-type"
      = some "application/json"
    ∧ from_body_bytes (fun _ => none) (fun _ => some (7 : Nat))
        (fun _ _ => none) [("content-type", "application/json")] [123]
      = .ok 7 :=
  ⟨rfl,
    (c6_body_dispatch (fun _ => none) (fun _ => some (7 : Nat))
      (fun _ _ => none) [("content-type", "application/json")] [123]).1 7
      rfl rfl⟩
